import Mathlib

/-!
Verification development for the live voice-agent client
(services/liveClient.ts and App.tsx).

The definitions below are a shallow embedding of the client logic:
JavaScript values that may be undefined are modelled with `JStr` /
`Option`, the event-driven callbacks are modelled as lists of emitted
events, and device clocks are modelled with rational timestamps.
-/

namespace LiveClientModel

/-- A JavaScript string-typed value that may be `undefined`.
`undef` models both an absent argument and `undefined`. -/
inductive JStr where
  | undef : JStr
  | str : String → JStr
deriving DecidableEq, Repr

/-- JavaScript `a || b` on string-typed values: `undefined` and the
empty string are falsy, every other string is truthy. -/
def JStr.orJs : JStr → JStr → JStr
  | JStr.undef, b => b
  | JStr.str s, b => if s = "" then b else JStr.str s

/-- Session status values reported through the status callback
(type `LiveStatus` in the source). -/
inductive LiveStatus where
  | disconnected | connecting | connected | error
deriving DecidableEq, Repr

/-- `CalendarEvent` from types.ts; fields keep the JavaScript value
semantics (a field built from missing arguments can be `undefined`). -/
structure CalendarEvent where
  title : JStr
  startTime : JStr
  endTime : JStr
  description : JStr
deriving DecidableEq, Repr

/-- Arguments of an inbound tool call (`fc.args`); each field may be
absent. -/
structure ToolArgs where
  content : JStr := JStr.undef
  title : JStr := JStr.undef
  startTime : JStr := JStr.undef
  endTime : JStr := JStr.undef
  description : JStr := JStr.undef
deriving DecidableEq, Repr

/-- One element of `message.toolCall.functionCalls`. -/
structure FunctionCall where
  id : String
  name : String
  args : ToolArgs
deriving DecidableEq, Repr

/-- The `response` payload sent back for a tool call. -/
structure ToolResult where
  result : String
deriving DecidableEq, Repr

/-- One `sendToolResponse` payload: `functionResponses` with the
original id and name. -/
structure ToolResponse where
  id : String
  name : String
  response : ToolResult
deriving DecidableEq, Repr

/-- Side effects a tool call can fire through the callbacks. -/
inductive ToolEffect where
  | noteTaken (note : JStr)
  | calendarEvent (event : CalendarEvent)
deriving DecidableEq, Repr

/-- The CalendarEvent built in the `scheduleAppointment` branch of
`handleMessage`: `endTime` falls back to `startTime` via JavaScript
`||`, `description` falls back to the empty string. -/
def makeCalendarEvent (args : ToolArgs) : CalendarEvent :=
  { title := args.title
    startTime := args.startTime
    endTime := JStr.orJs args.endTime args.startTime
    description := JStr.orJs args.description (JStr.str "") }

/-- The per-call body of the tool-call loop in `handleMessage`:
returns the callback side effects fired for this call and the single
response sent back for it. -/
def dispatchCall (fc : FunctionCall) : List ToolEffect × ToolResponse :=
  if fc.name = "takeNote" then
    ([ToolEffect.noteTaken fc.args.content],
     { id := fc.id, name := fc.name, response := { result := "Note saved." } })
  else if fc.name = "scheduleAppointment" then
    ([ToolEffect.calendarEvent (makeCalendarEvent fc.args)],
     { id := fc.id, name := fc.name, response := { result := "Appointment scheduled." } })
  else
    ([], { id := fc.id, name := fc.name, response := { result := "ok" } })

/-- Text carried by a transcription event
(`inputTranscription.text` or `outputTranscription.text`). -/
structure Transcription where
  text : String
deriving DecidableEq, Repr

/-- The `serverContent` part of an inbound message, restricted to the
fields `handleMessage` reads. The model-turn audio payload is kept
abstract as an optional base64 string. -/
structure ServerContent where
  inputTranscription : Option Transcription := none
  outputTranscription : Option Transcription := none
  modelTurnAudioData : Option String := none
deriving DecidableEq, Repr

/-- The `toolCall` part of an inbound message. -/
structure ToolCallMsg where
  functionCalls : List FunctionCall
deriving DecidableEq, Repr

/-- An inbound `LiveServerMessage`, restricted to the fields
`handleMessage` reads. -/
structure LiveServerMessage where
  toolCall : Option ToolCallMsg := none
  serverContent : Option ServerContent := none
deriving DecidableEq, Repr

/-- The list of function calls `handleMessage` iterates over for one
message (empty when `message.toolCall` is absent). -/
def messageFunctionCalls (m : LiveServerMessage) : List FunctionCall :=
  match m.toolCall with
  | none => []
  | some tc => tc.functionCalls

/-- The tool responses sent while handling one message: one
`sendToolResponse` per function call, in loop order. -/
def messageToolResponses (m : LiveServerMessage) : List ToolResponse :=
  (messageFunctionCalls m).map (fun fc => (dispatchCall fc).2)

/-- All tool-call requests received over a session, in arrival order. -/
def sessionToolRequests (msgs : List LiveServerMessage) : List FunctionCall :=
  msgs.flatMap messageFunctionCalls

/-- All tool-call responses emitted over a session, in send order. -/
def sessionToolResponses (msgs : List LiveServerMessage) : List ToolResponse :=
  msgs.flatMap messageToolResponses

/-- Speaker tag of a transcript segment. -/
inductive Speaker where
  | user | agent
deriving DecidableEq, Repr

/-- One `onTranscript` callback invocation: text, speaker, isFinal. -/
structure TranscriptSegment where
  speaker : Speaker
  text : String
  isFinal : Bool
deriving DecidableEq, Repr

/-- Transcript segments emitted while handling one message: the input
transcription (if present) as a final user segment, then the output
transcription (if present) as a non-final agent segment. -/
def transcriptEvents (m : LiveServerMessage) : List TranscriptSegment :=
  (match m.serverContent with
   | none => []
   | some sc =>
     (match sc.inputTranscription with
      | none => []
      | some t => [{ speaker := Speaker.user, text := t.text, isFinal := true }]) ++
     (match sc.outputTranscription with
      | none => []
      | some t => [{ speaker := Speaker.agent, text := t.text, isFinal := false }]))

/-- The aggregated transcript log: each `onTranscript` invocation
appends one segment to the log, in arrival order. -/
def transcriptLog (msgs : List LiveServerMessage) : List TranscriptSegment :=
  msgs.foldl (fun log m => log ++ transcriptEvents m) []

/-! ### Playback scheduler

The audio-output branch of `handleMessage` keeps a `nextStartTime`
field. On each decoded buffer it sets
`nextStartTime = max(nextStartTime, outputAudioContext.currentTime)`,
starts the buffer at that timestamp, and then advances `nextStartTime`
by the buffer's duration. Device timestamps and durations are modelled
as rationals. -/

/-- One inbound synthesized-audio buffer as the scheduler sees it: the
output device clock reading when it is handled, and the decoded
buffer's duration. -/
structure AudioArrival where
  currentTime : ℚ
  duration : ℚ
deriving DecidableEq, Repr

/-- One step of the audio-output branch: from the current
`nextStartTime` and an arriving buffer, the scheduled start passed to
`source.start` and the updated `nextStartTime`. -/
def scheduleStep (nextStartTime : ℚ) (a : AudioArrival) : ℚ × ℚ :=
  let start := max nextStartTime a.currentTime
  (start, start + a.duration)

/-- Scheduled start times produced by handling a sequence of audio
buffers starting from a given `nextStartTime`. -/
def scheduledStarts (nextStartTime : ℚ) : List AudioArrival → List ℚ
  | [] => []
  | a :: rest =>
    let p := scheduleStep nextStartTime a
    p.1 :: scheduledStarts p.2 rest

/-! ### Client resource state, disconnect and connect -/

/-- MediaRecorder state as read by `stopAudioStream`
(`state !== "inactive"`). -/
inductive RecorderState where
  | inactive | recording | paused
deriving DecidableEq, Repr

/-- The remote session object a resolved `sessionPromise` yields;
`hasClose` models `typeof session.close === "function"`. -/
structure SessionObj where
  hasClose : Bool
deriving DecidableEq, Repr

/-- The resource-holding fields of a `LiveClient` instance. Audio
nodes and contexts are tracked as held-or-released; `audioChunks` holds
the sizes of the recorded chunks. -/
structure ClientState where
  sessionPromise : Option SessionObj
  inputAudioContext : Bool
  outputAudioContext : Bool
  inputSource : Bool
  processor : Bool
  mediaRecorder : Option RecorderState
  audioChunks : List ℕ
deriving DecidableEq, Repr

/-- Observable events fired while disconnecting. -/
inductive ClientEvent where
  | remoteClosed
  | statusChanged (status : LiveStatus)
deriving DecidableEq, Repr

/-- `stopAudioStream`: stop the recorder unless already inactive, then
disconnect and null the processor, the input source, and both audio
contexts, each guarded by its own null check. -/
def stopAudioStream (s : ClientState) : ClientState :=
  let s1 :=
    match s.mediaRecorder with
    | some r => if r ≠ RecorderState.inactive
        then { s with mediaRecorder := some RecorderState.inactive } else s
    | none => s
  let s2 := if s1.processor then { s1 with processor := false } else s1
  let s3 := if s2.inputSource then { s2 with inputSource := false } else s2
  let s4 := if s3.inputAudioContext then { s3 with inputAudioContext := false } else s3
  if s4.outputAudioContext then { s4 with outputAudioContext := false } else s4

/-- The remote-close attempt in `disconnect`: if a session exists, its
`close` is invoked only when it is a function; otherwise nothing
happens. -/
def closeAttemptEvents (s : ClientState) : List ClientEvent :=
  match s.sessionPromise with
  | some sess => if sess.hasClose then [ClientEvent.remoteClosed] else []
  | none => []

/-- `disconnect()`: attempt the guarded remote close, run
`stopAudioStream`, and report `disconnected` through the status
callback. Returns the final state and the emitted events in order. -/
def disconnect (s : ClientState) : ClientState × List ClientEvent :=
  (stopAudioStream s,
   closeAttemptEvents s ++ [ClientEvent.statusChanged LiveStatus.disconnected])

/-- The environment a `connect()` call runs against: whether device
acquisition (`getUserMedia`) and the remote connection handshake
succeed or throw. -/
structure ConnectEnv where
  getUserMedia : Except String Unit
  liveConnect : Except String SessionObj
deriving Repr

/-- The body of the `try` block in `connect()`: acquire the devices,
then open the remote connection; either step may throw. -/
def connectBody (env : ConnectEnv) : Except String SessionObj := do
  let _ ← env.getUserMedia
  env.liveConnect

/-- `connect()`: reports `connecting`, runs the body inside
`try/catch`; a thrown error is caught and reported as the `error`
status. Returns normally in every case: the result is the list of
statuses reported through the status callback. -/
def connect (env : ConnectEnv) : Except String (List LiveStatus) :=
  match connectBody env with
  | Except.ok _ => Except.ok [LiveStatus.connecting]
  | Except.error _ => Except.ok [LiveStatus.connecting, LiveStatus.error]

/-! ### Capture amplitude and recording -/

/-- The amplitude computed in `onaudioprocess`: the square root of the
mean of the squared samples of the block. -/
noncomputable def computeRms (samples : List ℝ) : ℝ :=
  Real.sqrt ((samples.map (fun x => x * x)).sum / samples.length)

/-- One `ondataavailable` handler step: a chunk is appended only when
its size is positive. -/
def pushChunk (chunks : List ℕ) (size : ℕ) : List ℕ :=
  if 0 < size then chunks ++ [size] else chunks

/-- The size of the Blob `getRecording()` builds: a Blob made from a
list of parts has the sum of their sizes. -/
def getRecordingSize (s : ClientState) : ℕ :=
  s.audioChunks.sum

/-- The caller's post-disconnect step in App.tsx `toggleSession`: a
download URL is created only when the recording Blob's size is
strictly positive; the model returns the size when a URL is created. -/
def recordingUrlAfterDisconnect (s : ClientState) : Option ℕ :=
  if 0 < getRecordingSize s then some (getRecordingSize s) else none

end LiveClientModel

namespace LiveClientModel

/-! ## Theorems -/

/-- C4: a scheduleAppointment call whose arguments contain only title
and startTime emits a CalendarEvent with endTime equal to startTime and
description equal to the empty string, and the response for that call
id is the result string "Appointment scheduled.". -/
theorem scheduleAppointment_defaults (cid tt st : String) (c : JStr) :
    dispatchCall
      { id := cid, name := "scheduleAppointment",
        args := { content := c, title := JStr.str tt,
                  startTime := JStr.str st,
                  endTime := JStr.undef, description := JStr.undef } } =
      ([ToolEffect.calendarEvent
          { title := JStr.str tt, startTime := JStr.str st,
            endTime := JStr.str st, description := JStr.str "" }],
       { id := cid, name := "scheduleAppointment",
         response := { result := "Appointment scheduled." } }) := by
  simp [dispatchCall, makeCalendarEvent, JStr.orJs]

/-- C10: the endTime fallback of scheduleAppointment applies to any
falsy endTime argument: an endTime present but equal to the empty
string yields an event whose endTime equals startTime, exactly as when
endTime is absent. -/
theorem scheduleAppointment_falsyEndTime (cid : String) (c tt st d : JStr) :
    (dispatchCall
      { id := cid, name := "scheduleAppointment",
        args := { content := c, title := tt, startTime := st,
                  endTime := JStr.str "", description := d } }).1 =
      [ToolEffect.calendarEvent
        { title := tt, startTime := st, endTime := st,
          description := JStr.orJs d (JStr.str "") }] ∧
    (dispatchCall
      { id := cid, name := "scheduleAppointment",
        args := { content := c, title := tt, startTime := st,
                  endTime := JStr.undef, description := d } }).1 =
      [ToolEffect.calendarEvent
        { title := tt, startTime := st, endTime := st,
          description := JStr.orJs d (JStr.str "") }] := by
  constructor <;> simp [dispatchCall, makeCalendarEvent, JStr.orJs]

/-- C5: a tool call whose name is neither takeNote nor
scheduleAppointment gets the response result "ok" tagged with its id
and name, and fires no callback side effect. -/
theorem unknownTool_ok (fc : FunctionCall)
    (h1 : fc.name ≠ "takeNote") (h2 : fc.name ≠ "scheduleAppointment") :
    dispatchCall fc =
      ([], { id := fc.id, name := fc.name, response := { result := "ok" } }) := by
  simp [dispatchCall, h1, h2]

/-- Witness for C5 at a concrete unknown tool name. -/
theorem unknownTool_ok_witness :
    dispatchCall { id := "call-7", name := "webSearch", args := {} } =
      ([], { id := "call-7", name := "webSearch",
             response := { result := "ok" } }) :=
  unknownTool_ok { id := "call-7", name := "webSearch", args := {} }
    (by decide) (by decide)

/-- C8: the amplitude emitted per captured block is the square root of
the mean square of its samples; on an all-zero block it is exactly 0,
and on a block of constant amplitude A it is exactly A. -/
theorem computeRms_zero_and_const (n : ℕ) (A : ℝ) (hn : 0 < n) (hA : 0 ≤ A) :
    computeRms (List.replicate n 0) = 0 ∧
    computeRms (List.replicate n A) = A := by
  have hnR : (n : ℝ) ≠ 0 := Nat.cast_ne_zero.mpr hn.ne'
  constructor
  · simp [computeRms]
  · simp only [computeRms, List.map_replicate, List.sum_replicate,
      List.length_replicate, nsmul_eq_mul]
    rw [mul_div_cancel_left₀ _ hnR]
    exact Real.sqrt_mul_self hA

/-- Witness for C8: a two-sample block. -/
theorem computeRms_zero_and_const_witness :
    computeRms (List.replicate 2 0) = 0 ∧
    computeRms (List.replicate 2 1) = 1 :=
  computeRms_zero_and_const 2 1 (by norm_num) (by norm_num)

/-- C9: a session that produced no recording chunks finalizes to an
artifact of size 0, and the caller creates a download URL exactly when
the artifact size is strictly positive (so never for the empty one). -/
theorem zeroChunks_emptyArtifact (s : ClientState) (hs : s.audioChunks = []) :
    getRecordingSize s = 0 ∧ recordingUrlAfterDisconnect s = none ∧
    ∀ s2 : ClientState,
      (recordingUrlAfterDisconnect s2).isSome = true ↔ 0 < getRecordingSize s2 := by
  refine ⟨by simp [getRecordingSize, hs], by simp [recordingUrlAfterDisconnect, getRecordingSize, hs], ?_⟩
  intro s2
  by_cases h : 0 < getRecordingSize s2 <;> simp [recordingUrlAfterDisconnect, h]

/-- Witness for C9 at a concrete chunkless client state. -/
theorem zeroChunks_emptyArtifact_witness :
    getRecordingSize
        { sessionPromise := none, inputAudioContext := false,
          outputAudioContext := false, inputSource := false,
          processor := false, mediaRecorder := none, audioChunks := [] } = 0 ∧
    recordingUrlAfterDisconnect
        { sessionPromise := none, inputAudioContext := false,
          outputAudioContext := false, inputSource := false,
          processor := false, mediaRecorder := none, audioChunks := [] } = none ∧
    ∀ s2 : ClientState,
      (recordingUrlAfterDisconnect s2).isSome = true ↔ 0 < getRecordingSize s2 :=
  zeroChunks_emptyArtifact
    { sessionPromise := none, inputAudioContext := false,
      outputAudioContext := false, inputSource := false,
      processor := false, mediaRecorder := none, audioChunks := [] } rfl

/-- C6: when device acquisition or the connection handshake fails,
connect reports the error status through the status callback and
returns normally; for every environment, connect returns normally
rather than propagating an exception. -/
theorem connect_neverThrows (env : ConnectEnv) (e : String)
    (h : connectBody env = Except.error e) :
    connect env = Except.ok [LiveStatus.connecting, LiveStatus.error] ∧
    ∀ env2 : ConnectEnv, (connect env2).isOk = true := by
  constructor
  · simp [connect, h]
  · intro env2
    unfold connect
    cases connectBody env2 <;> rfl

/-- Witness for C6: a denied device acquisition. -/
theorem connect_neverThrows_witness :
    connect { getUserMedia := Except.error "denied",
              liveConnect := Except.ok { hasClose := true } } =
      Except.ok [LiveStatus.connecting, LiveStatus.error] ∧
    ∀ env2 : ConnectEnv, (connect env2).isOk = true :=
  connect_neverThrows
    { getUserMedia := Except.error "denied",
      liveConnect := Except.ok { hasClose := true } } "denied" rfl

/-- C7: an input-transcription event appends exactly one user segment
marked final, an output-transcription event appends exactly one agent
segment marked non-final, the log grows append-only in arrival order,
and the two-event example yields exactly the expected log. -/
theorem transcript_appendOnly
    (tc tc2 : Option ToolCallMsg) (mt mt2 : Option String) (t t2 : String)
    (msgs : List LiveServerMessage) (m : LiveServerMessage) :
    transcriptEvents
        { toolCall := tc,
          serverContent := some { inputTranscription := some { text := t },
                                  outputTranscription := none,
                                  modelTurnAudioData := mt } } =
      [{ speaker := Speaker.user, text := t, isFinal := true }] ∧
    transcriptEvents
        { toolCall := tc2,
          serverContent := some { inputTranscription := none,
                                  outputTranscription := some { text := t2 },
                                  modelTurnAudioData := mt2 } } =
      [{ speaker := Speaker.agent, text := t2, isFinal := false }] ∧
    transcriptLog (msgs ++ [m]) = transcriptLog msgs ++ transcriptEvents m ∧
    transcriptLog
        [{ serverContent := some { inputTranscription := some { text := "hi" } } },
         { serverContent := some { outputTranscription := some { text := "hello" } } }] =
      [{ speaker := Speaker.user, text := "hi", isFinal := true },
       { speaker := Speaker.agent, text := "hello", isFinal := false }] := by
  refine ⟨rfl, rfl, ?_, rfl⟩
  simp [transcriptLog, List.foldl_append]

/-- The net effect of stopAudioStream: the recorder is driven to
inactive when present, and the processor, input source and both audio
contexts are released; nothing else changes. -/
theorem stopAudioStream_eq (s : ClientState) :
    stopAudioStream s =
      { s with processor := false, inputSource := false,
               inputAudioContext := false, outputAudioContext := false,
               mediaRecorder := s.mediaRecorder.map (fun _ => RecorderState.inactive) } := by
  rcases s with ⟨sp, iac, oac, isrc, pr, mr, ch⟩
  rcases mr with _ | r
  · cases iac <;> cases oac <;> cases isrc <;> cases pr <;>
      simp [stopAudioStream]
  · cases r <;> cases iac <;> cases oac <;> cases isrc <;> cases pr <;>
      simp [stopAudioStream]

/-- C3: disconnect always ends by reporting the disconnected status,
invokes the remote close exactly when a session exists and exposes a
close function, unconditionally releases the processor, input source,
both audio contexts and the recorder, and is idempotent. -/
theorem disconnect_safe (s : ClientState) :
    ((disconnect s).2.getLast? =
        some (ClientEvent.statusChanged LiveStatus.disconnected)) ∧
    (disconnect s).1.processor = false ∧
    (disconnect s).1.inputSource = false ∧
    (disconnect s).1.inputAudioContext = false ∧
    (disconnect s).1.outputAudioContext = false ∧
    ((disconnect s).1.mediaRecorder = none ∨
      (disconnect s).1.mediaRecorder = some RecorderState.inactive) ∧
    (ClientEvent.remoteClosed ∈ (disconnect s).2 ↔
      ∃ sess, s.sessionPromise = some sess ∧ sess.hasClose = true) ∧
    disconnect (disconnect s).1 = disconnect s := by
  refine ⟨?_, ?_, ?_, ?_, ?_, ?_, ?_, ?_⟩
  · simp [disconnect]
  · simp [disconnect, stopAudioStream_eq]
  · simp [disconnect, stopAudioStream_eq]
  · simp [disconnect, stopAudioStream_eq]
  · simp [disconnect, stopAudioStream_eq]
  · rcases s with ⟨sp, iac, oac, isrc, pr, mr, ch⟩
    rcases mr with _ | r <;> simp [disconnect, stopAudioStream_eq]
  · rcases s with ⟨sp, iac, oac, isrc, pr, mr, ch⟩
    rcases sp with _ | sess
    · simp [disconnect, closeAttemptEvents]
    · cases h : sess.hasClose <;>
        simp [disconnect, closeAttemptEvents, h]
  · rcases s with ⟨sp, iac, oac, isrc, pr, mr, ch⟩
    rcases mr with _ | r <;>
      simp [disconnect, stopAudioStream_eq, closeAttemptEvents]

/-- Every branch of the tool-call loop tags its response with the
call's original id and name. -/
theorem dispatchCall_response_tag (fc : FunctionCall) :
    (dispatchCall fc).2.id = fc.id ∧ (dispatchCall fc).2.name = fc.name := by
  unfold dispatchCall
  split_ifs <;> exact ⟨rfl, rfl⟩

/-- The session's responses are exactly one `dispatchCall` response per
received request, in order. -/
theorem sessionToolResponses_eq_map (msgs : List LiveServerMessage) :
    sessionToolResponses msgs =
      (sessionToolRequests msgs).map (fun fc => (dispatchCall fc).2) := by
  induction msgs with
  | nil => rfl
  | cons m rest ih =>
    simp [sessionToolResponses, sessionToolRequests, messageToolResponses,
      List.flatMap_cons] at ih ⊢
    exact ih

/-- C2: over a session whose received tool-call ids are distinct, the
emitted responses carry exactly the requests' ids and names in order,
one independent response per request, and every request id is answered
exactly once. -/
theorem toolResponses_oncePerId (msgs : List LiveServerMessage)
    (h : ((sessionToolRequests msgs).map FunctionCall.id).Nodup) :
    (sessionToolResponses msgs).map (fun r => (r.id, r.name)) =
      (sessionToolRequests msgs).map (fun fc => (fc.id, fc.name)) ∧
    (sessionToolResponses msgs).length = (sessionToolRequests msgs).length ∧
    ∀ fc ∈ sessionToolRequests msgs,
      ((sessionToolResponses msgs).map ToolResponse.id).count fc.id = 1 := by
  have hids : (sessionToolResponses msgs).map ToolResponse.id =
      (sessionToolRequests msgs).map FunctionCall.id := by
    rw [sessionToolResponses_eq_map, List.map_map]
    exact List.map_congr_left fun fc _ => (dispatchCall_response_tag fc).1
  refine ⟨?_, ?_, ?_⟩
  · rw [sessionToolResponses_eq_map, List.map_map]
    refine List.map_congr_left fun fc _ => ?_
    have htag := dispatchCall_response_tag fc
    simp [Function.comp, htag.1, htag.2]
  · rw [sessionToolResponses_eq_map, List.length_map]
  · intro fc hfc
    rw [hids]
    exact List.count_eq_one_of_mem h (List.mem_map_of_mem FunctionCall.id hfc)

/-- A concrete inbound message carrying two tool calls with distinct
ids, used to witness C2. -/
def demoToolMsgs : List LiveServerMessage :=
  [{ toolCall := some { functionCalls :=
       [{ id := "call-1", name := "takeNote",
          args := { content := JStr.str "note" } },
        { id := "call-2", name := "scheduleAppointment",
          args := { title := JStr.str "Meeting",
                    startTime := JStr.str "9am" } }] } }]

/-- Witness for C2 on `demoToolMsgs`. -/
theorem toolResponses_oncePerId_witness :
    ((sessionToolRequests demoToolMsgs).map FunctionCall.id).Nodup ∧
    ((sessionToolResponses demoToolMsgs).map (fun r => (r.id, r.name)) =
      (sessionToolRequests demoToolMsgs).map (fun fc => (fc.id, fc.name)) ∧
    (sessionToolResponses demoToolMsgs).length =
      (sessionToolRequests demoToolMsgs).length ∧
    ∀ fc ∈ sessionToolRequests demoToolMsgs,
      ((sessionToolResponses demoToolMsgs).map ToolResponse.id).count fc.id = 1) :=
  ⟨by decide, toolResponses_oncePerId demoToolMsgs (by decide)⟩

/-- Unfolding lemma for one scheduler step at the head of the buffer
sequence. -/
theorem scheduledStarts_cons (t : ℚ) (a : AudioArrival) (rest : List AudioArrival) :
    scheduledStarts t (a :: rest) =
      max t a.currentTime ::
        scheduledStarts (max t a.currentTime + a.duration) rest := rfl

/-- The scheduler assigns exactly one start time per buffer. -/
theorem scheduledStarts_length (t : ℚ) (bs : List AudioArrival) :
    (scheduledStarts t bs).length = bs.length := by
  induction bs generalizing t with
  | nil => rfl
  | cons a rest ih => simp [scheduledStarts_cons, ih]

/-- C1: each buffer's scheduled start is the maximum of the next-start
timestamp and the device time at arrival, the next-start timestamp
advances by the buffer's duration, and consequently consecutive
scheduled starts never overlap and no buffer is scheduled before the
device time at its arrival. -/
theorem playback_schedule (t0 : ℚ) (bs : List AudioArrival) (n : ℕ)
    (h1 : n + 1 < bs.length) (h2 : n + 1 < (scheduledStarts t0 bs).length) :
    (∀ (t : ℚ) (a : AudioArrival),
        scheduleStep t a = (max t a.currentTime, max t a.currentTime + a.duration)) ∧
    (scheduledStarts t0 bs).get ⟨n, by omega⟩ +
        (bs.get ⟨n, by omega⟩).duration ≤
      (scheduledStarts t0 bs).get ⟨n + 1, h2⟩ ∧
    (bs.get ⟨n + 1, h1⟩).currentTime ≤ (scheduledStarts t0 bs).get ⟨n + 1, h2⟩ := by
  refine ⟨fun t a => rfl, ?_⟩
  induction bs generalizing t0 n with
  | nil => simp at h1
  | cons a rest ih =>
    cases n with
    | zero =>
      cases rest with
      | nil => simp at h1
      | cons b rest2 =>
        simp only [scheduledStarts_cons, List.get_eq_getElem,
          List.getElem_cons_zero, List.getElem_cons_succ]
        exact ⟨le_max_left _ _, le_max_right _ _⟩
    | succ m =>
      have h1' : m + 1 < rest.length := by
        simpa using h1
      have h2' : m + 1 <
          (scheduledStarts (max t0 a.currentTime + a.duration) rest).length := by
        rw [scheduledStarts_length]
        exact h1'
      have hrec := ih (max t0 a.currentTime + a.duration) m h1' h2'
      simpa only [scheduledStarts_cons, List.get_eq_getElem,
        List.getElem_cons_succ] using hrec

/-- Witness for C1: two buffers, the second arriving after the first
finished playing. -/
theorem playback_schedule_witness :
    ((0 : ℕ) + 1 <
      ([{ currentTime := 0, duration := 1 }, { currentTime := 2, duration := 1 }] :
        List AudioArrival).length) ∧
    ((0 : ℕ) + 1 <
      (scheduledStarts 0
        [{ currentTime := 0, duration := 1 }, { currentTime := 2, duration := 1 }]).length) ∧
    ((∀ (t : ℚ) (a : AudioArrival),
        scheduleStep t a = (max t a.currentTime, max t a.currentTime + a.duration)) ∧
      (scheduledStarts 0
          [{ currentTime := 0, duration := 1 }, { currentTime := 2, duration := 1 }]).get
          ⟨0, by decide⟩ +
        (([{ currentTime := 0, duration := 1 }, { currentTime := 2, duration := 1 }] :
            List AudioArrival).get ⟨0, by decide⟩).duration ≤
        (scheduledStarts 0
          [{ currentTime := 0, duration := 1 }, { currentTime := 2, duration := 1 }]).get
          ⟨0 + 1, by decide⟩ ∧
      (([{ currentTime := 0, duration := 1 }, { currentTime := 2, duration := 1 }] :
          List AudioArrival).get ⟨0 + 1, by decide⟩).currentTime ≤
        (scheduledStarts 0
          [{ currentTime := 0, duration := 1 }, { currentTime := 2, duration := 1 }]).get
          ⟨0 + 1, by decide⟩) :=
  ⟨by decide, by decide,
    playback_schedule 0
      [{ currentTime := 0, duration := 1 }, { currentTime := 2, duration := 1 }]
      0 (by decide) (by decide)⟩

end LiveClientModel
